import Mathlib

/-!
Verification of the Bayesian prediction engine
(`bayesian_core.py` and `universal_predictor.py`).

Floating-point values held in numpy arrays are modelled by the type
`Fl`: an exact rational for finite values, plus `inf`, `ninf` and `nan`
propagated with IEEE-754 rules (rounding is ignored, zero is unsigned
and behaves as +0).  All arithmetic `bayesian_core.py` performs on numpy
arrays is expressed with the `Fl` operations below, so degenerate
divisions (0/0, x/0) produce `nan`/`inf` exactly as numpy does instead
of being silently identified with rational division.

`universal_predictor.py`, in contrast, computes on plain Python floats
(numpy is imported there but never used): plain-float division by zero
raises `ZeroDivisionError` and never yields NaN or Inf.  Its arithmetic
is therefore modelled directly on rationals, with the division in the
prediction loop returning an explicit `zeroDivision` error when the
denominator is zero.
-/

/-- Model of an IEEE-754 double: a finite rational, an infinity, or NaN. -/
inductive Fl where
  | fin : ℚ → Fl
  | inf : Fl
  | ninf : Fl
  | nan : Fl
deriving DecidableEq

/-- IEEE multiplication on the float model. -/
def fmul : Fl → Fl → Fl
  | .fin a, .fin b => .fin (a * b)
  | .nan, _ => .nan
  | _, .nan => .nan
  | .inf, .fin a => if 0 < a then .inf else if a < 0 then .ninf else .nan
  | .fin a, .inf => if 0 < a then .inf else if a < 0 then .ninf else .nan
  | .ninf, .fin a => if 0 < a then .ninf else if a < 0 then .inf else .nan
  | .fin a, .ninf => if 0 < a then .ninf else if a < 0 then .inf else .nan
  | .inf, .inf => .inf
  | .inf, .ninf => .ninf
  | .ninf, .inf => .ninf
  | .ninf, .ninf => .inf

/-- IEEE addition on the float model. -/
def fadd : Fl → Fl → Fl
  | .fin a, .fin b => .fin (a + b)
  | .nan, _ => .nan
  | _, .nan => .nan
  | .inf, .ninf => .nan
  | .ninf, .inf => .nan
  | .inf, _ => .inf
  | _, .inf => .inf
  | .ninf, _ => .ninf
  | _, .ninf => .ninf

/-- IEEE division on the float model (zero behaves as +0, so a positive
finite value divided by zero is `inf` and 0/0 is `nan`, as in numpy). -/
def fdiv : Fl → Fl → Fl
  | .fin a, .fin b =>
      if b = 0 then (if a = 0 then .nan else if 0 < a then .inf else .ninf)
      else .fin (a / b)
  | .nan, _ => .nan
  | _, .nan => .nan
  | .inf, .fin b => if 0 ≤ b then .inf else .ninf
  | .ninf, .fin b => if 0 ≤ b then .ninf else .inf
  | .fin _, .inf => .fin 0
  | .fin _, .ninf => .fin 0
  | .inf, .inf => .nan
  | .inf, .ninf => .nan
  | .ninf, .inf => .nan
  | .ninf, .ninf => .nan

/-- Whether a float value is finite (neither an infinity nor NaN). -/
def Fl.isFin : Fl → Bool
  | .fin _ => true
  | _ => false

/-- numpy array sum (`ndarray.sum()`), left fold starting from 0. -/
def npsum (l : List Fl) : Fl := l.foldl fadd (.fin 0)

/-- The distinct failure kinds the source can surface to a caller:
`invalidInput` models the `ValueError` raised by
`UniversalPredictor.update`, `emptyState` the `ValueError` numpy raises
for `argmax` of an empty sequence, `indexError` a Python `IndexError`
on list indexing, and `zeroDivision` the `ZeroDivisionError` raised by
plain-float division by zero in `UniversalPredictor.predict`. -/
inductive Err where
  | invalidInput : Err
  | degenerateEvidence : Err
  | emptyState : Err
  | indexError : Err
  | zeroDivision : Err
deriving DecidableEq

/-! ## `bayesian_core.py`: `SimpleBayesianForecaster` -/

/-- State of `SimpleBayesianForecaster`: the `scenarios` list and the
`probabilities` numpy array (a list of float values). -/
structure SimpleBayesianForecaster where
  scenarios : List String
  probabilities : List Fl
deriving DecidableEq

/-- `SimpleBayesianForecaster.__init__`: empty scenarios and probabilities. -/
def SimpleBayesianForecaster.init : SimpleBayesianForecaster := ⟨[], []⟩

/-- `SimpleBayesianForecaster.add_scenarios`: stores the scenario list and
`np.array(probability_list)` unconditionally (the printing is ignored). -/
def SimpleBayesianForecaster.add_scenarios (_f : SimpleBayesianForecaster)
    (scenario_list : List String) (probability_list : List ℚ) :
    SimpleBayesianForecaster :=
  { scenarios := scenario_list
    probabilities := probability_list.map Fl.fin }

/-- `SimpleBayesianForecaster.update_with_evidence`: elementwise product of
the likelihood array with the stored probabilities, then division by the
sum of the products (the evidence description only feeds a print and is
omitted).  numpy elementwise multiplication of two equal-length arrays is
`List.zipWith fmul`. -/
def SimpleBayesianForecaster.update_with_evidence (f : SimpleBayesianForecaster)
    (likelihood_scores : List ℚ) : SimpleBayesianForecaster :=
  let likelihoods := likelihood_scores.map Fl.fin
  let updated_probs := List.zipWith fmul likelihoods f.probabilities
  { f with probabilities := updated_probs.map (fun w => fdiv w (npsum updated_probs)) }

/-- The comparison `np.argmax` uses when scanning for a new maximum: the
candidate replaces the current maximum exactly when it is strictly
greater, with NaN propagated as the maximal element (numpy returns the
index of the first NaN when one is present). -/
def fgtKey : Fl → Fl → Bool
  | .nan, .nan => false
  | .nan, _ => true
  | _, .nan => false
  | .fin a, .fin b => b < a
  | .inf, .inf => false
  | .inf, _ => true
  | .fin _, .inf => false
  | .fin _, .ninf => true
  | .ninf, _ => false

/-- Scan of `np.argmax`: walk the remaining list keeping the current
maximum value, the index where it occurred, and the index of the next
element. -/
def argmaxAux : List Fl → Fl → Nat → Nat → Nat
  | [], _, best, _ => best
  | x :: xs, cur, best, i =>
      if fgtKey x cur then argmaxAux xs x i (i + 1)
      else argmaxAux xs cur best (i + 1)

/-- `SimpleBayesianForecaster.get_most_likely_scenario`: `np.argmax` over the
probabilities followed by indexing both lists.  `np.argmax` raises on an
empty sequence (`emptyState`); Python list indexing raises `IndexError`
when the index is out of range. -/
def SimpleBayesianForecaster.get_most_likely_scenario
    (f : SimpleBayesianForecaster) : Except Err (String × Fl) :=
  match f.probabilities with
  | [] => .error .emptyState
  | x :: xs =>
      let max_index := argmaxAux xs x 0 1
      match f.scenarios.get? max_index, f.probabilities.get? max_index with
      | some s, some p => .ok (s, p)
      | _, _ => .error .indexError

/-! ## `universal_predictor.py`: `UniversalPredictor`

Python dictionaries are modelled as association lists that preserve
insertion order; assigning to an existing key overwrites its value in
place, assigning to a fresh key appends it at the end, exactly as a
Python dict iterates.  Feature values ("any hashable") are modelled as
strings, which is how every caller in the repository uses them. -/

/-- Python dict assignment `d[k] = v`: overwrite in place or append. -/
def dictSet {α : Type} : List (String × α) → String → α → List (String × α)
  | [], k, v => [(k, v)]
  | (k', v') :: rest, k, v =>
      if k' = k then (k', v) :: rest else (k', v') :: dictSet rest k v

/-- State of `UniversalPredictor`: the `prior` float and the two nested
dictionaries `feature_likelihoods` and `feature_counts`. -/
structure UniversalPredictor where
  prior : ℚ
  feature_likelihoods : List (String × List (String × ℚ))
  feature_counts : List (String × List (String × ℤ))
deriving DecidableEq

/-- `UniversalPredictor.update`: validates the counts (raising
`ValueError`, modelled as `invalidInput`, before any mutation), creates
the inner dictionaries when the feature is new, then stores
`positive_count / total_count` and `total_count`. -/
def UniversalPredictor.update (p : UniversalPredictor) (feature value : String)
    (positive_count total_count : ℤ) : Except Err UniversalPredictor :=
  if total_count ≤ 0 then .error .invalidInput
  else if positive_count > total_count then .error .invalidInput
  else
    let fl := if (p.feature_likelihoods.lookup feature).isNone
      then dictSet p.feature_likelihoods feature [] else p.feature_likelihoods
    let fc := if (p.feature_counts.lookup feature).isNone
      then dictSet p.feature_counts feature [] else p.feature_counts
    .ok { p with
      feature_likelihoods :=
        dictSet fl feature
          (dictSet ((fl.lookup feature).getD []) value
            ((positive_count : ℚ) / (total_count : ℚ)))
      feature_counts :=
        dictSet fc feature
          (dictSet ((fc.lookup feature).getD []) value total_count) }

/-- The membership-and-lookup
`feature in self.feature_likelihoods and value in self.feature_likelihoods[feature]`
followed by `self.feature_likelihoods[feature][value]`. -/
def UniversalPredictor.lookupLikelihood (p : UniversalPredictor)
    (feature value : String) : Option ℚ :=
  match p.feature_likelihoods.lookup feature with
  | none => none
  | some inner => inner.lookup value

/-- One iteration of the prediction loop:
`posterior = (likelihood * posterior) / (likelihood * posterior + (1 - likelihood) * (1 - posterior))`
on plain Python floats: when the denominator is zero, Python raises
`ZeroDivisionError` (modelled as the `zeroDivision` error) — it never
produces NaN. -/
def bayesStep (posterior likelihood : ℚ) : Except Err ℚ :=
  if likelihood * posterior + (1 - likelihood) * (1 - posterior) = 0
  then .error .zeroDivision
  else .ok (likelihood * posterior
      / (likelihood * posterior + (1 - likelihood) * (1 - posterior)))

/-- The `for feature, value in features.items()` loop of
`UniversalPredictor.predict`, threading `self` (which the loop body only
reads) together with the running posterior; returns the final `self`,
the final posterior and the `used_features` / `ignored_features` lists
in append order, or propagates the `ZeroDivisionError` raised by an
update whose denominator is zero. -/
def predictLoop (p : UniversalPredictor) :
    List (String × String) → ℚ →
      Except Err
        (UniversalPredictor × ℚ × List (String × String × ℚ) × List (String × String))
  | [], posterior => .ok (p, posterior, [], [])
  | (feature, value) :: rest, posterior =>
      match p.lookupLikelihood feature value with
      | some likelihood =>
          match bayesStep posterior likelihood with
          | .error e => .error e
          | .ok posterior2 =>
              match predictLoop p rest posterior2 with
              | .error e => .error e
              | .ok r =>
                  .ok (r.1, r.2.1, (feature, value, likelihood) :: r.2.2.1, r.2.2.2)
      | none =>
          match predictLoop p rest posterior with
          | .error e => .error e
          | .ok r => .ok (r.1, r.2.1, r.2.2.1, (feature, value) :: r.2.2.2)

/-- The dictionary `UniversalPredictor.predict` returns (on the success
path every quantity is a finite plain float, so the posterior is a
rational). -/
structure PredictResult where
  probability : ℚ
  confidence : ℚ
  used_features : List (String × String × ℚ)
  ignored_features : List (String × String)
deriving DecidableEq

/-- `UniversalPredictor.predict` as the method executes: start from the
prior, run the feature loop, then compute the coverage confidence
(`explain` only prints and is omitted).  The first component is the
`self` object as the method leaves it; an error is an unhandled
exception escaping the method, leaving `self` untouched. -/
def UniversalPredictor.predictM (p : UniversalPredictor)
    (features : List (String × String)) :
    Except Err (UniversalPredictor × PredictResult) :=
  match predictLoop p features p.prior with
  | .error e => .error e
  | .ok r =>
      .ok (r.1,
        { probability := r.2.1
          confidence :=
            if 0 < features.length
            then (r.2.2.1.length : ℚ) / (features.length : ℚ) else 0
          used_features := r.2.2.1
          ignored_features := r.2.2.2 })

/-- The value `UniversalPredictor.predict` returns to its caller (or the
exception it raises). -/
def UniversalPredictor.predict (p : UniversalPredictor)
    (features : List (String × String)) : Except Err PredictResult :=
  (p.predictM features).map (fun r => r.2)


/-! ## Specification-side definitions used by the theorems -/

/-- The §3 invariant of a belief distribution: every stored probability
is a finite non-negative float and the probabilities sum to 1 within
tolerance 1e-9. -/
def validDist (l : List Fl) : Prop :=
  ∃ qs : List ℚ, l = qs.map Fl.fin ∧ (∀ q ∈ qs, 0 ≤ q) ∧
    |qs.sum - 1| ≤ 1 / 1000000000

/-- The sequence of incremental Bayes updates `predict` performs for a
given list of stored likelihoods, starting from a given posterior:
stops with the `zeroDivision` error as soon as one update divides by
zero.  Used to state that ignored features do not enter the posterior
computation. -/
def bayesFold : List ℚ → ℚ → Except Err ℚ
  | [], post => .ok post
  | likelihood :: rest, post =>
      match bayesStep post likelihood with
      | .error e => .error e
      | .ok post2 => bayesFold rest post2

/-- Rational shadow of `argmaxAux`, used to reason about the scan when
every probability is finite. -/
def argmaxAuxQ : List ℚ → ℚ → Nat → Nat → Nat
  | [], _, best, _ => best
  | x :: xs, cur, best, i =>
      if cur < x then argmaxAuxQ xs x i (i + 1)
      else argmaxAuxQ xs cur best (i + 1)

/-! ## Helper lemmas -/

theorem zipWith_fmul_map_fin : ∀ (ls pl : List ℚ),
    List.zipWith fmul (ls.map Fl.fin) (pl.map Fl.fin)
      = (List.zipWith (fun a b => a * b) ls pl).map Fl.fin
  | [], _ => by simp
  | _ :: _, [] => by simp
  | x :: xs, y :: ys => by
      simp [fmul, zipWith_fmul_map_fin xs ys]

theorem foldl_fadd_map_fin : ∀ (ws : List ℚ) (a : ℚ),
    (ws.map Fl.fin).foldl fadd (Fl.fin a) = Fl.fin (a + ws.sum)
  | [], a => by simp
  | x :: xs, a => by
      simp [fadd, foldl_fadd_map_fin xs (a + x)]
      ring

theorem npsum_map_fin (ws : List ℚ) : npsum (ws.map Fl.fin) = Fl.fin ws.sum := by
  simp [npsum, foldl_fadd_map_fin ws 0]

theorem update_with_evidence_probabilities (sl : List String) (pl ls : List ℚ) :
    ((SimpleBayesianForecaster.mk sl (pl.map Fl.fin)).update_with_evidence ls).probabilities
      = ((List.zipWith (fun a b => a * b) ls pl).map
          (fun w => fdiv (Fl.fin w) (Fl.fin (List.zipWith (fun a b => a * b) ls pl).sum))) := by
  simp only [SimpleBayesianForecaster.update_with_evidence, zipWith_fmul_map_fin,
    npsum_map_fin, List.map_map]
  rfl

theorem mem_zipWith_mul_nonneg : ∀ {ls qs : List ℚ},
    (∀ x ∈ ls, 0 ≤ x) → (∀ q ∈ qs, 0 ≤ q) →
    ∀ w ∈ List.zipWith (fun a b => a * b) ls qs, 0 ≤ w
  | [], _, _, _ => by simp
  | _ :: _, [], _, _ => by simp
  | x :: xs, y :: ys, hx, hy => by
      intro w hw
      rcases List.mem_cons.mp hw with h | h
      · subst h
        exact mul_nonneg (hx x (by simp)) (hy y (by simp))
      · exact mem_zipWith_mul_nonneg (fun a ha => hx a (by simp [ha]))
          (fun a ha => hy a (by simp [ha])) w h

theorem sum_map_div : ∀ (l : List ℚ) (d : ℚ),
    (l.map (fun x => x / d)).sum = l.sum / d
  | [], d => by simp
  | x :: xs, d => by
      simp [sum_map_div xs d, add_div]

theorem argmaxAux_map_fin : ∀ (xs : List ℚ) (c : ℚ) (best i : Nat),
    argmaxAux (xs.map Fl.fin) (Fl.fin c) best i = argmaxAuxQ xs c best i
  | [], _, _, _ => rfl
  | x :: xs, c, best, i => by
      simp only [List.map_cons, argmaxAux, argmaxAuxQ, fgtKey]
      by_cases h : c < x
      · simp [h, argmaxAux_map_fin xs x i (i + 1)]
      · simp [h, argmaxAux_map_fin xs c best (i + 1)]

theorem argmaxAuxQ_spec : ∀ (xs : List ℚ) (cur : ℚ) (best i : Nat),
    (argmaxAuxQ xs cur best i = best ∧ ∀ x ∈ xs, x ≤ cur)
    ∨ (∃ k, k < xs.length ∧ argmaxAuxQ xs cur best i = i + k ∧
        cur < xs.getD k 0 ∧ (∀ x ∈ xs, x ≤ xs.getD k 0) ∧
        ∀ j < k, xs.getD j 0 < xs.getD k 0)
  | [], cur, best, i => Or.inl ⟨rfl, by simp⟩
  | x :: xs, cur, best, i => by
      simp only [argmaxAuxQ]
      by_cases h : cur < x
      · simp only [if_pos h]
        right
        rcases argmaxAuxQ_spec xs x i (i + 1) with ⟨heq, hle⟩ | ⟨k, hk, heq, hcur, hle, hstrict⟩
        · refine ⟨0, by simp, by simpa using heq, by simpa using h, ?_, by simp⟩
          intro y hy
          rcases List.mem_cons.mp hy with rfl | hy
          · simp
          · simpa using hle y hy
        · refine ⟨k + 1, by simpa using Nat.succ_lt_succ hk, by omega, ?_, ?_, ?_⟩
          · simpa using lt_trans h hcur
          · intro y hy
            rcases List.mem_cons.mp hy with rfl | hy
            · simpa using le_of_lt hcur
            · simpa using hle y hy
          · intro j hj
            cases j with
            | zero => simpa using hcur
            | succ j' => simpa using hstrict j' (by omega)
      · simp only [if_neg h]
        rcases argmaxAuxQ_spec xs cur best (i + 1) with ⟨heq, hle⟩ | ⟨k, hk, heq, hcur, hle, hstrict⟩
        · left
          refine ⟨heq, ?_⟩
          intro y hy
          rcases List.mem_cons.mp hy with rfl | hy
          · exact le_of_not_lt h
          · exact hle y hy
        · right
          refine ⟨k + 1, by simpa using Nat.succ_lt_succ hk, by omega, ?_, ?_, ?_⟩
          · simpa using hcur
          · intro y hy
            rcases List.mem_cons.mp hy with rfl | hy
            · simpa using le_of_lt (lt_of_le_of_lt (le_of_not_lt h) hcur)
            · simpa using hle y hy
          · intro j hj
            cases j with
            | zero => simpa using lt_of_le_of_lt (le_of_not_lt h) hcur
            | succ j' => simpa using hstrict j' (by omega)

theorem lookup_dictSet {α : Type} : ∀ (l : List (String × α)) (k k' : String) (v : α),
    (dictSet l k v).lookup k' = if k' = k then some v else l.lookup k'
  | [], k, k', v => by
      by_cases h : k' = k
      · simp [dictSet, List.lookup, h]
      · simp [dictSet, List.lookup, h, beq_eq_false_iff_ne.mpr h]
  | (a, b) :: tl, k, k', v => by
      by_cases hak : a = k
      · subst hak
        by_cases h : k' = a
        · simp [dictSet, List.lookup, h]
        · simp [dictSet, List.lookup, h, beq_eq_false_iff_ne.mpr h]
      · by_cases h : k' = a
        · subst h
          simp [dictSet, hak, List.lookup, Ne.symm hak]
        · simp [dictSet, hak, List.lookup, h, beq_eq_false_iff_ne.mpr h,
            lookup_dictSet tl k k' v]

theorem predictLoop_self (p : UniversalPredictor) : ∀ (fs : List (String × String)) (post : ℚ),
    (predictLoop p fs post).map (fun r => r.1) = (predictLoop p fs post).map (fun _ => p)
  | [], _ => rfl
  | (f, v) :: rest, post => by
      cases hl : p.lookupLikelihood f v with
      | none =>
          have ih := predictLoop_self p rest post
          cases hr : predictLoop p rest post with
          | error e => simp [predictLoop, hl, hr, Except.map]
          | ok r =>
              rw [hr] at ih
              simp only [Except.map, Except.ok.injEq] at ih
              simp [predictLoop, hl, hr, Except.map, ih]
      | some likelihood =>
          cases hb : bayesStep post likelihood with
          | error e => simp [predictLoop, hl, hb, Except.map]
          | ok post2 =>
              have ih := predictLoop_self p rest post2
              cases hr : predictLoop p rest post2 with
              | error e => simp [predictLoop, hl, hb, hr, Except.map]
              | ok r =>
                  rw [hr] at ih
                  simp only [Except.map, Except.ok.injEq] at ih
                  simp [predictLoop, hl, hb, hr, Except.map, ih]

theorem predictLoop_ignored (p : UniversalPredictor) : ∀ (fs : List (String × String)) (post : ℚ),
    (predictLoop p fs post).map (fun r => r.2.2.2)
      = (predictLoop p fs post).map
          (fun _ => fs.filter (fun fv => (p.lookupLikelihood fv.1 fv.2).isNone))
  | [], _ => rfl
  | (f, v) :: rest, post => by
      cases hl : p.lookupLikelihood f v with
      | none =>
          have ih := predictLoop_ignored p rest post
          cases hr : predictLoop p rest post with
          | error e => simp [predictLoop, hl, hr, Except.map]
          | ok r =>
              rw [hr] at ih
              simp only [Except.map, Except.ok.injEq] at ih
              simp [predictLoop, hl, hr, Except.map, List.filter_cons, ih]
      | some likelihood =>
          cases hb : bayesStep post likelihood with
          | error e => simp [predictLoop, hl, hb, Except.map]
          | ok post2 =>
              have ih := predictLoop_ignored p rest post2
              cases hr : predictLoop p rest post2 with
              | error e => simp [predictLoop, hl, hb, hr, Except.map]
              | ok r =>
                  rw [hr] at ih
                  simp only [Except.map, Except.ok.injEq] at ih
                  simp [predictLoop, hl, hb, hr, Except.map, List.filter_cons, ih]

theorem predictLoop_probability (p : UniversalPredictor) : ∀ (fs : List (String × String)) (post : ℚ),
    (predictLoop p fs post).map (fun r => r.2.1)
      = bayesFold (fs.filterMap (fun fv => p.lookupLikelihood fv.1 fv.2)) post
  | [], _ => rfl
  | (f, v) :: rest, post => by
      cases hl : p.lookupLikelihood f v with
      | none =>
          have ih := predictLoop_probability p rest post
          cases hr : predictLoop p rest post with
          | error e =>
              rw [hr] at ih
              simp only [List.filterMap_cons, hl]
              simp [predictLoop, hl, hr, Except.map, ← ih]
          | ok r =>
              rw [hr] at ih
              simp only [List.filterMap_cons, hl]
              simp [predictLoop, hl, hr, Except.map, ← ih]
      | some likelihood =>
          cases hb : bayesStep post likelihood with
          | error e =>
              simp only [List.filterMap_cons, hl, bayesFold, hb]
              simp [predictLoop, hl, hb, Except.map]
          | ok post2 =>
              have ih := predictLoop_probability p rest post2
              cases hr : predictLoop p rest post2 with
              | error e =>
                  rw [hr] at ih
                  simp only [List.filterMap_cons, hl, bayesFold, hb]
                  simp [predictLoop, hl, hb, hr, Except.map, ← ih]
              | ok r =>
                  rw [hr] at ih
                  simp only [List.filterMap_cons, hl, bayesFold, hb]
                  simp [predictLoop, hl, hb, hr, Except.map, ← ih]

theorem predictLoop_all_unknown (p : UniversalPredictor) :
    ∀ (fs : List (String × String)) (post : ℚ),
    (∀ fv ∈ fs, p.lookupLikelihood fv.1 fv.2 = none) →
    predictLoop p fs post = .ok (p, post, [], fs)
  | [], _ => fun _ => rfl
  | (f, v) :: rest, post => fun h => by
      have hf : p.lookupLikelihood f v = none := h (f, v) (by simp)
      have ih := predictLoop_all_unknown p rest post (fun fv hfv => h fv (by simp [hfv]))
      simp [predictLoop, hf, ih]

theorem fdiv_fin_zero_not_fin (w : ℚ) : (fdiv (Fl.fin w) (Fl.fin 0)).isFin = false := by
  by_cases h0 : w = 0
  · simp [fdiv, h0, Fl.isFin]
  · by_cases hpos : 0 < w <;> simp [fdiv, h0, hpos, Fl.isFin]

theorem update_probabilities_div (sl : List String) (pl ls : List ℚ)
    (h : (List.zipWith (fun a b => a * b) ls pl).sum ≠ 0) :
    ((SimpleBayesianForecaster.mk sl (pl.map Fl.fin)).update_with_evidence ls).probabilities
      = ((List.zipWith (fun a b => a * b) ls pl).map
          (fun w => w / (List.zipWith (fun a b => a * b) ls pl).sum)).map Fl.fin := by
  rw [update_with_evidence_probabilities, List.map_map]
  refine List.map_congr_left ?_
  intro w _
  simp [fdiv, h, Function.comp]

/-! ## Claim theorems -/

/-- C6 (amended): `add_scenarios` performs no validation at all: for every
current state and every pair of input lists it unconditionally stores the
given labels and the given probabilities, whether or not the lengths
match, the probabilities are non-negative, or the labels are unique, and
it never raises an error. -/
theorem C6_add_scenarios_no_validation (f : SimpleBayesianForecaster)
    (sl : List String) (pl : List ℚ) :
    f.add_scenarios sl pl = ⟨sl, pl.map Fl.fin⟩ := rfl

/-- C6 witness: a concrete instance of the amended theorem. -/
theorem C6_add_scenarios_no_validation_witness :
    SimpleBayesianForecaster.init.add_scenarios ["A", "A"] [-1/2]
      = ⟨["A", "A"], ([-1/2] : List ℚ).map Fl.fin⟩ :=
  C6_add_scenarios_no_validation SimpleBayesianForecaster.init ["A", "A"] [-1/2]

/-- C6 counterexample: with duplicate labels, a negative probability and
mismatched lengths (two labels, one probability), `add_scenarios` raises
nothing and stores the state, contradicting the claim that it fails with
`InvalidInput` and stores no state in each of these cases. -/
theorem C6_counterexample :
    SimpleBayesianForecaster.init.add_scenarios ["A", "A"] [-1/2]
      = ⟨["A", "A"], [Fl.fin (-1/2)]⟩
    ∧ SimpleBayesianForecaster.init.add_scenarios ["A", "A"] [-1/2]
      ≠ SimpleBayesianForecaster.init := by
  constructor
  · rfl
  · simp [SimpleBayesianForecaster.add_scenarios, SimpleBayesianForecaster.init]

/-- C1 (amended): when the element-wise products of the likelihoods with
the current probabilities sum to zero, `update_with_evidence` does not
raise any error: it divides by the zero sum, replacing every stored
probability with a non-finite value (NaN for the zero products), so the
stored distribution is changed (for non-empty inputs) and contains no
finite entry. -/
theorem C1_degenerate_update_nan (sl : List String) (pl ls : List ℚ)
    (hsum : (List.zipWith (fun a b => a * b) ls pl).sum = 0) :
    (∀ x ∈ ((SimpleBayesianForecaster.mk sl (pl.map Fl.fin)).update_with_evidence
        ls).probabilities, x.isFin = false)
    ∧ (ls ≠ [] → pl ≠ [] →
        ((SimpleBayesianForecaster.mk sl (pl.map Fl.fin)).update_with_evidence
          ls).probabilities ≠ pl.map Fl.fin) := by
  have hprob := update_with_evidence_probabilities sl pl ls
  rw [hsum] at hprob
  constructor
  · intro x hx
    rw [hprob] at hx
    obtain ⟨w, _, rfl⟩ := List.mem_map.mp hx
    exact fdiv_fin_zero_not_fin w
  · intro hls hpl heq
    rw [hprob] at heq
    cases ls with
    | nil => exact hls rfl
    | cons l0 ls' =>
      cases pl with
      | nil => exact hpl rfl
      | cons p0 pl' =>
        have hhead := congrArg List.head? heq
        simp only [List.zipWith_cons_cons, List.map_cons, List.head?_cons,
          Option.some.injEq] at hhead
        have h1 : (fdiv (Fl.fin (l0 * p0)) (Fl.fin 0)).isFin = false :=
          fdiv_fin_zero_not_fin (l0 * p0)
        rw [hhead] at h1
        simp [Fl.isFin] at h1

/-- C1 witness: a concrete instance of the amended theorem. -/
theorem C1_degenerate_update_nan_witness :
    (∀ x ∈ ((SimpleBayesianForecaster.mk ["Sunny", "Rainy", "Cloudy"]
        (([4/10, 3/10, 3/10] : List ℚ).map Fl.fin)).update_with_evidence
        [0, 0, 0]).probabilities, x.isFin = false)
    ∧ ((SimpleBayesianForecaster.mk ["Sunny", "Rainy", "Cloudy"]
        (([4/10, 3/10, 3/10] : List ℚ).map Fl.fin)).update_with_evidence
        [0, 0, 0]).probabilities ≠ ([4/10, 3/10, 3/10] : List ℚ).map Fl.fin := by
  have h := C1_degenerate_update_nan ["Sunny", "Rainy", "Cloudy"]
    [4/10, 3/10, 3/10] [0, 0, 0] (by norm_num)
  exact ⟨h.1, h.2 (by simp) (by simp)⟩

/-- C1 counterexample: `update([0,0,0])` on the 3-scenario distribution
`[0.4, 0.3, 0.3]` raises no error, mutates the stored distribution, and
leaves it equal to `[NaN, NaN, NaN]` — contradicting the claim that a
`DegenerateEvidence` error is raised, the distribution is unchanged, and
no NaN ever appears. -/
theorem C1_counterexample :
    (SimpleBayesianForecaster.init.add_scenarios ["Sunny", "Rainy", "Cloudy"]
        [4/10, 3/10, 3/10]).update_with_evidence [0, 0, 0]
      = ⟨["Sunny", "Rainy", "Cloudy"], [.nan, .nan, .nan]⟩
    ∧ ([Fl.nan, Fl.nan, Fl.nan] : List Fl) ≠ ([4/10, 3/10, 3/10] : List ℚ).map Fl.fin := by
  constructor
  · norm_num [SimpleBayesianForecaster.add_scenarios,
      SimpleBayesianForecaster.update_with_evidence, SimpleBayesianForecaster.init,
      fmul, fadd, fdiv, npsum]
  · simp

/-- C4 (amended): `update_with_evidence` multiplies each scenario
probability by its likelihood and renormalizes by the sum of the
products; on the concrete scenario the resulting probabilities are
`[2/23, 27/46, 15/46] ≈ [0.087, 0.587, 0.326]` (not `[0.069, 0.621,
0.310]` as claimed) and `most_likely` returns `("Rainy", 27/46 ≈ 0.587)`
(not `≈ 0.621`). -/
theorem C4_update_renormalizes :
    (∀ (sl : List String) (pl ls : List ℚ),
      (List.zipWith (fun a b => a * b) ls pl).sum ≠ 0 →
      ((SimpleBayesianForecaster.mk sl (pl.map Fl.fin)).update_with_evidence
          ls).probabilities
        = ((List.zipWith (fun a b => a * b) ls pl).map
            (fun w => w / (List.zipWith (fun a b => a * b) ls pl).sum)).map Fl.fin)
    ∧ ((SimpleBayesianForecaster.init.add_scenarios ["Sunny", "Rainy", "Cloudy"]
          [4/10, 3/10, 3/10]).update_with_evidence [1/10, 9/10, 5/10]).probabilities
        = [Fl.fin (2/23), Fl.fin (27/46), Fl.fin (15/46)]
    ∧ ((SimpleBayesianForecaster.init.add_scenarios ["Sunny", "Rainy", "Cloudy"]
          [4/10, 3/10, 3/10]).update_with_evidence
          [1/10, 9/10, 5/10]).get_most_likely_scenario = .ok ("Rainy", Fl.fin (27/46))
    ∧ |(2:ℚ)/23 - 87/1000| < 1/1000 ∧ |(27:ℚ)/46 - 587/1000| < 1/1000
    ∧ |(15:ℚ)/46 - 326/1000| < 1/1000 := by
  refine ⟨update_probabilities_div, ?_, ?_, ?_, ?_, ?_⟩
  · norm_num [SimpleBayesianForecaster.add_scenarios,
      SimpleBayesianForecaster.update_with_evidence, SimpleBayesianForecaster.init,
      fmul, fadd, fdiv, npsum]
  · norm_num [SimpleBayesianForecaster.add_scenarios,
      SimpleBayesianForecaster.update_with_evidence, SimpleBayesianForecaster.init,
      SimpleBayesianForecaster.get_most_likely_scenario,
      fmul, fadd, fdiv, npsum, argmaxAux, fgtKey]
  · rw [abs_sub_lt_iff]; constructor <;> norm_num
  · rw [abs_sub_lt_iff]; constructor <;> norm_num
  · rw [abs_sub_lt_iff]; constructor <;> norm_num

/-- C4 witness: a concrete instance of the quantified renormalization
part of the amended theorem. -/
theorem C4_update_renormalizes_witness :
    ((SimpleBayesianForecaster.mk ["Sunny", "Rainy", "Cloudy"]
        (([4/10, 3/10, 3/10] : List ℚ).map Fl.fin)).update_with_evidence
        [1/10, 9/10, 5/10]).probabilities
      = ((List.zipWith (fun a b => a * b) ([1/10, 9/10, 5/10] : List ℚ)
            [4/10, 3/10, 3/10]).map
          (fun w => w / (List.zipWith (fun a b => a * b)
            ([1/10, 9/10, 5/10] : List ℚ) [4/10, 3/10, 3/10]).sum)).map Fl.fin :=
  C4_update_renormalizes.1 ["Sunny", "Rainy", "Cloudy"] [4/10, 3/10, 3/10]
    [1/10, 9/10, 5/10] (by norm_num)

/-- C4 counterexample: the probabilities after the claimed scenario are
`2/23` and `27/46`, which differ from the claimed `0.069` and `0.621` by
more than 0.01, so the claimed approximate values are wrong (the
renormalized products of `[0.1,0.9,0.5]` with `[0.4,0.3,0.3]` are
`≈ [0.087, 0.587, 0.326]`). -/
theorem C4_counterexample :
    ((SimpleBayesianForecaster.init.add_scenarios ["Sunny", "Rainy", "Cloudy"]
        [4/10, 3/10, 3/10]).update_with_evidence
        [1/10, 9/10, 5/10]).probabilities.get? 0 = some (Fl.fin (2/23))
    ∧ ((SimpleBayesianForecaster.init.add_scenarios ["Sunny", "Rainy", "Cloudy"]
        [4/10, 3/10, 3/10]).update_with_evidence
        [1/10, 9/10, 5/10]).get_most_likely_scenario = .ok ("Rainy", Fl.fin (27/46))
    ∧ (2:ℚ)/23 - 69/1000 > 1/100 ∧ (621:ℚ)/1000 - 27/46 > 1/100 := by
  refine ⟨?_, ?_, by norm_num, by norm_num⟩
  · norm_num [SimpleBayesianForecaster.add_scenarios,
      SimpleBayesianForecaster.update_with_evidence, SimpleBayesianForecaster.init,
      fmul, fadd, fdiv, npsum]
  · norm_num [SimpleBayesianForecaster.add_scenarios,
      SimpleBayesianForecaster.update_with_evidence, SimpleBayesianForecaster.init,
      SimpleBayesianForecaster.get_most_likely_scenario,
      fmul, fadd, fdiv, npsum, argmaxAux, fgtKey]

/-- C5 (confirmed): after `add_scenarios` with non-negative, normalized
priors the stored probabilities are finite, non-negative and sum to 1
within 1e-9; and one successful `update_with_evidence` step from any
valid distribution, with non-negative likelihoods and at least one
nonzero product, yields again a valid distribution (so the invariant
holds after every such update by induction on the update sequence). -/
theorem C5_probabilities_invariant :
    (∀ (f : SimpleBayesianForecaster) (sl : List String) (pl : List ℚ),
        (∀ q ∈ pl, 0 ≤ q) → pl.sum = 1 →
        validDist ((f.add_scenarios sl pl).probabilities))
    ∧ (∀ (sl : List String) (qs ls : List ℚ),
        (∀ q ∈ qs, 0 ≤ q) → |qs.sum - 1| ≤ 1 / 1000000000 →
        (∀ x ∈ ls, 0 ≤ x) →
        (∃ w ∈ List.zipWith (fun a b => a * b) ls qs, w ≠ 0) →
        validDist (((SimpleBayesianForecaster.mk sl
          (qs.map Fl.fin)).update_with_evidence ls).probabilities)) := by
  constructor
  · intro f sl pl hnn hsum
    exact ⟨pl, rfl, hnn, by rw [hsum]; norm_num⟩
  · intro sl qs ls hqs _ hls ⟨w, hwmem, hwne⟩
    have hWnn : ∀ x ∈ List.zipWith (fun a b => a * b) ls qs, 0 ≤ x :=
      mem_zipWith_mul_nonneg hls hqs
    have hwpos : 0 < w := lt_of_le_of_ne (hWnn w hwmem) (Ne.symm hwne)
    have hWpos : 0 < (List.zipWith (fun a b => a * b) ls qs).sum :=
      lt_of_lt_of_le hwpos (List.single_le_sum hWnn w hwmem)
    have hWne : (List.zipWith (fun a b => a * b) ls qs).sum ≠ 0 := ne_of_gt hWpos
    refine ⟨(List.zipWith (fun a b => a * b) ls qs).map
      (fun x => x / (List.zipWith (fun a b => a * b) ls qs).sum),
      update_probabilities_div sl qs ls hWne, ?_, ?_⟩
    · intro q hq
      obtain ⟨x, hx, rfl⟩ := List.mem_map.mp hq
      exact div_nonneg (hWnn x hx) (le_of_lt hWpos)
    · rw [sum_map_div, div_self hWne]
      norm_num

/-- C5 witness: concrete instances of both parts of the theorem. -/
theorem C5_probabilities_invariant_witness :
    validDist ((SimpleBayesianForecaster.init.add_scenarios ["S"]
      [1]).probabilities)
    ∧ validDist (((SimpleBayesianForecaster.mk ["S", "R"]
      (([1/2, 1/2] : List ℚ).map Fl.fin)).update_with_evidence [1, 1]).probabilities) := by
  constructor
  · exact C5_probabilities_invariant.1 SimpleBayesianForecaster.init ["S"] [1]
      (by norm_num) (by norm_num)
  · exact C5_probabilities_invariant.2 ["S", "R"] [1/2, 1/2] [1, 1]
      (by norm_num) (by norm_num) (by norm_num)
      ⟨1/2, by norm_num [List.zipWith], by norm_num⟩

theorem get?_eq_getD {α : Type} : ∀ (l : List α) (n : Nat), n < l.length →
    ∀ d : α, l.get? n = some (l.getD n d)
  | [], n, h => by simp at h
  | x :: xs, 0, _ => fun _ => rfl
  | x :: xs, n + 1, h => fun d => get?_eq_getD xs n (by simpa using h) d

theorem most_likely_eval (sl : List String) (p : ℚ) (ps : List ℚ)
    (hlen : sl.length = ps.length + 1) (k : Nat) (hk : k < ps.length + 1)
    (heq : argmaxAuxQ ps p 0 1 = k) :
    (SimpleBayesianForecaster.mk sl ((p :: ps).map Fl.fin)).get_most_likely_scenario
      = .ok (sl.getD k "", Fl.fin ((p :: ps).getD k 0)) := by
  have h1 : sl.get? k = some (sl.getD k "") := get?_eq_getD sl k (by omega) ""
  have h2 : (Fl.fin p :: ps.map Fl.fin).get? k = some (Fl.fin ((p :: ps).getD k 0)) := by
    have : ((p :: ps).map Fl.fin).get? k = ((p :: ps).get? k).map Fl.fin := List.get?_map _ _ _
    rw [List.map_cons] at this
    rw [this, get?_eq_getD (p :: ps) k (by simpa using hk) 0]
    rfl
  simp only [SimpleBayesianForecaster.get_most_likely_scenario, List.map_cons]
  rw [argmaxAux_map_fin, heq, h1, h2]

/-- C8 (confirmed): `get_most_likely_scenario` fails on the
freshly-constructed (uninitialized) forecaster — numpy refuses `argmax`
of an empty sequence, modelled as the `emptyState` error — and on any
initialized finite distribution it returns the label and probability at
the first index attaining the maximum probability (ties broken in favor
of the earliest scenario in insertion order). -/
theorem C8_most_likely :
    SimpleBayesianForecaster.init.get_most_likely_scenario = .error .emptyState
    ∧ ∀ (sl : List String) (pl : List ℚ), pl ≠ [] → sl.length = pl.length →
      ∃ k, k < pl.length ∧
        (SimpleBayesianForecaster.mk sl (pl.map Fl.fin)).get_most_likely_scenario
          = .ok (sl.getD k "", Fl.fin (pl.getD k 0))
        ∧ (∀ x ∈ pl, x ≤ pl.getD k 0)
        ∧ ∀ j < k, pl.getD j 0 < pl.getD k 0 := by
  constructor
  · rfl
  · intro sl pl hne hlen
    cases pl with
    | nil => exact absurd rfl hne
    | cons p ps =>
      have hlen' : sl.length = ps.length + 1 := by simpa using hlen
      rcases argmaxAuxQ_spec ps p 0 1 with ⟨heq, hle⟩ | ⟨k', hk', heq, hcur, hle, hstrict⟩
      · refine ⟨0, by simp, most_likely_eval sl p ps hlen' 0 (by omega) heq, ?_, by omega⟩
        intro x hx
        rcases List.mem_cons.mp hx with rfl | hx
        · simp
        · simpa using hle x hx
      · refine ⟨k' + 1, by simpa using Nat.succ_lt_succ hk',
          most_likely_eval sl p ps hlen' (k' + 1) (by omega) (by omega), ?_, ?_⟩
        · intro x hx
          rcases List.mem_cons.mp hx with rfl | hx
          · simpa using le_of_lt hcur
          · simpa using hle x hx
        · intro j hj
          cases j with
          | zero => simpa using hcur
          | succ j' => simpa using hstrict j' (by omega)

/-- C8 witness: a concrete instance of the initialized part of the
theorem. -/
theorem C8_most_likely_witness :
    ∃ k, k < ([1/4, 3/4] : List ℚ).length ∧
      (SimpleBayesianForecaster.mk ["A", "B"]
        (([1/4, 3/4] : List ℚ).map Fl.fin)).get_most_likely_scenario
        = .ok ((["A", "B"] : List String).getD k "",
            Fl.fin (([1/4, 3/4] : List ℚ).getD k 0))
      ∧ (∀ x ∈ ([1/4, 3/4] : List ℚ), x ≤ ([1/4, 3/4] : List ℚ).getD k 0)
      ∧ ∀ j < k, ([1/4, 3/4] : List ℚ).getD j 0 < ([1/4, 3/4] : List ℚ).getD k 0 :=
  C8_most_likely.2 ["A", "B"] [1/4, 3/4] (by simp) (by simp)

/-- C3 (confirmed): `record("age","20-25",30,100)` then
`predict({"age":"20-25"})` with the default prior 0.5 yields posterior
exactly 0.3, confidence 1.0, `used_features = [("age","20-25",0.3)]` and
no ignored features. -/
theorem C3_round_trip :
    (UniversalPredictor.update ⟨1/2, [], []⟩ "age" "20-25" 30 100).bind
      (fun p => p.predict [("age", "20-25")]) =
    .ok ⟨3/10, 1, [("age", "20-25", 3/10)], []⟩ := by
  norm_num [UniversalPredictor.update, UniversalPredictor.predict,
    UniversalPredictor.predictM, predictLoop, UniversalPredictor.lookupLikelihood,
    bayesStep, dictSet, List.lookup, Except.map, Except.bind]

/-- C10 (confirmed): `predict` never mutates the predictor: in every
run, including those that raise, the method leaves `self` (its prior,
feature-likelihood table and feature-count table) exactly as it started
— on the success path the returned `self` equals the input state, and on
the raising path the exception escapes without any attribute write. -/
theorem C10_predict_pure (p : UniversalPredictor) (fs : List (String × String)) :
    (p.predictM fs).map (fun r => r.1) = (p.predictM fs).map (fun _ => p) := by
  have h := predictLoop_self p fs p.prior
  unfold UniversalPredictor.predictM
  cases hr : predictLoop p fs p.prior with
  | error e => rfl
  | ok r =>
      rw [hr] at h
      simp only [Except.map] at h ⊢
      simpa using h

/-- C9 (confirmed): in every run of `predict`, the posterior computation
is the Bayes fold over exactly the stored likelihoods of the supplied
pairs, so supplied pairs without a stored likelihood never enter it; a
call in which no supplied pair has a stored likelihood always returns,
with the posterior equal to the prior, an empty used list, every pair
ignored and confidence 0; and every returning call reports as ignored
exactly the pairs without a stored likelihood and a confidence of
`used_count / total_supplied_count`, with 0 when no features were
supplied. -/
theorem C9_predict_coverage (p : UniversalPredictor) (fs : List (String × String)) :
    ((p.predict fs).map (fun r => r.probability)
        = bayesFold (fs.filterMap (fun fv => p.lookupLikelihood fv.1 fv.2)) p.prior)
    ∧ ((∀ fv ∈ fs, p.lookupLikelihood fv.1 fv.2 = none) →
        p.predict fs = .ok ⟨p.prior, 0, [], fs⟩)
    ∧ (∀ r, p.predict fs = .ok r →
        r.ignored_features = fs.filter (fun fv => (p.lookupLikelihood fv.1 fv.2).isNone)
        ∧ r.confidence = (if 0 < fs.length
            then (r.used_features.length : ℚ) / (fs.length : ℚ) else 0)
        ∧ (fs = [] → r.confidence = 0)) := by
  refine ⟨?_, ?_, ?_⟩
  · have h := predictLoop_probability p fs p.prior
    unfold UniversalPredictor.predict UniversalPredictor.predictM
    cases hr : predictLoop p fs p.prior with
    | error e =>
        rw [hr] at h
        simpa [Except.map] using h
    | ok r =>
        rw [hr] at h
        simpa [Except.map] using h
  · intro hall
    unfold UniversalPredictor.predict UniversalPredictor.predictM
    rw [predictLoop_all_unknown p fs p.prior hall]
    simp only [Except.map]
    rcases fs with _ | ⟨fv, rest⟩
    · rfl
    · simp
  · intro r hok
    have hign := predictLoop_ignored p fs p.prior
    unfold UniversalPredictor.predict UniversalPredictor.predictM at hok
    cases hr : predictLoop p fs p.prior with
    | error e =>
        rw [hr] at hok
        exact absurd hok (by simp [Except.map])
    | ok r0 =>
        rw [hr] at hok hign
        simp only [Except.map, Except.ok.injEq] at hok
        subst hok
        refine ⟨?_, rfl, ?_⟩
        · simpa [Except.map] using hign
        · intro h
          subst h
          rfl

/-- C9 witness: predicting on an unknown feature value returns (raises
nothing), leaves the posterior at the prior, ignores the pair and
reports confidence 0. -/
theorem C9_predict_coverage_witness :
    UniversalPredictor.predict
      ⟨1/2, [("age", [("20-25", 3/10)])], [("age", [("20-25", 100)])]⟩
      [("age", "99-100")] = .ok ⟨1/2, 0, [], [("age", "99-100")]⟩ :=
  (C9_predict_coverage
    ⟨1/2, [("age", [("20-25", 3/10)])], [("age", [("20-25", 100)])]⟩
    [("age", "99-100")]).2.1 (by
      intro fv hfv
      rcases List.mem_singleton.mp hfv with rfl
      simp [UniversalPredictor.lookupLikelihood, List.lookup])

/-- C7 (confirmed): `update` (named `record` in the spec) raises `InvalidInput`
exactly when `total_count ≤ 0` or `positive_count > total_count`, before
any state mutation (the error carries the untouched state semantics of a
raised exception); on success it stores `positive_count / total_count`
under `(feature, value)`, overwriting any previous entry for that exact
pair and leaving every other entry unchanged, and under the argument
precondition of the spec `positive_count ≥ 0` the stored likelihood lies in
[0,1]. -/
theorem C7_record_validation (p : UniversalPredictor) (feature value : String)
    (pc tc : ℤ) :
    ((tc ≤ 0 ∨ tc < pc) → p.update feature value pc tc = .error .invalidInput)
    ∧ (¬(tc ≤ 0 ∨ tc < pc) → ∃ p',
        p.update feature value pc tc = .ok p'
        ∧ p'.prior = p.prior
        ∧ (∀ f' v', p'.lookupLikelihood f' v'
            = if f' = feature ∧ v' = value then some ((pc : ℚ) / (tc : ℚ))
              else p.lookupLikelihood f' v')
        ∧ (0 ≤ pc → 0 ≤ (pc : ℚ) / (tc : ℚ) ∧ (pc : ℚ) / (tc : ℚ) ≤ 1)) := by
  constructor
  · intro h
    by_cases h0 : tc ≤ 0
    · simp [UniversalPredictor.update, h0]
    · have hlt : tc < pc := h.resolve_left h0
      simp [UniversalPredictor.update, h0, hlt]
  · intro h
    push_neg at h
    obtain ⟨h0, h1⟩ := h
    have hupd : p.update feature value pc tc = .ok
        { p with
          feature_likelihoods :=
            dictSet
              (if (p.feature_likelihoods.lookup feature).isNone
                then dictSet p.feature_likelihoods feature []
                else p.feature_likelihoods) feature
              (dictSet (((if (p.feature_likelihoods.lookup feature).isNone
                  then dictSet p.feature_likelihoods feature []
                  else p.feature_likelihoods).lookup feature).getD []) value
                ((pc : ℚ) / (tc : ℚ)))
          feature_counts :=
            dictSet
              (if (p.feature_counts.lookup feature).isNone
                then dictSet p.feature_counts feature []
                else p.feature_counts) feature
              (dictSet (((if (p.feature_counts.lookup feature).isNone
                  then dictSet p.feature_counts feature []
                  else p.feature_counts).lookup feature).getD []) value tc) } := by
      simp [UniversalPredictor.update, not_le.mpr h0, not_lt.mpr h1]
    refine ⟨_, hupd, rfl, ?_, ?_⟩
    · intro f' v'
      by_cases hf : f' = feature
      · subst hf
        by_cases hv : v' = value
        · subst hv
          cases hlk : p.feature_likelihoods.lookup f' with
          | none =>
              simp [UniversalPredictor.lookupLikelihood, lookup_dictSet, hlk]
          | some inner0 =>
              simp [UniversalPredictor.lookupLikelihood, lookup_dictSet, hlk]
        · cases hlk : p.feature_likelihoods.lookup f' with
          | none =>
              simp [UniversalPredictor.lookupLikelihood, lookup_dictSet, hv, hlk,
                List.lookup, beq_eq_false_iff_ne.mpr hv]
          | some inner0 =>
              simp [UniversalPredictor.lookupLikelihood, lookup_dictSet, hv, hlk]
      · cases hn : p.feature_likelihoods.lookup feature with
        | none =>
            simp [UniversalPredictor.lookupLikelihood, lookup_dictSet, hf, hn]
        | some inner0 =>
            simp [UniversalPredictor.lookupLikelihood, lookup_dictSet, hf, hn]
    · intro hpc
      have htc : (0 : ℚ) < (tc : ℚ) := by exact_mod_cast h0
      constructor
      · exact div_nonneg (by exact_mod_cast hpc) (le_of_lt htc)
      · rw [div_le_one htc]
        exact_mod_cast h1

/-- C7 witness: a concrete successful record. -/
theorem C7_record_validation_witness :
    ∃ p', UniversalPredictor.update ⟨1/2, [], []⟩ "age" "20-25" 30 100 = .ok p'
      ∧ p'.prior = (⟨1/2, [], []⟩ : UniversalPredictor).prior
      ∧ (∀ f' v', p'.lookupLikelihood f' v'
          = if f' = "age" ∧ v' = "20-25" then some ((30 : ℚ) / (100 : ℚ))
            else (⟨1/2, [], []⟩ : UniversalPredictor).lookupLikelihood f' v')
      ∧ (0 ≤ (30 : ℤ) → 0 ≤ (30 : ℚ) / (100 : ℚ) ∧ (30 : ℚ) / (100 : ℚ) ≤ 1) :=
  (C7_record_validation ⟨1/2, [], []⟩ "age" "20-25" 30 100).2 (by decide)

/-- C2 (amended): in the incremental Bayes update of `predict`, a
likelihood of exactly 0 drives the posterior to exactly 0 (provided the
posterior is not already 1) and a likelihood of exactly 1 drives it to
exactly 1 (provided it is not already 0); once at an extreme the
posterior is left unchanged by any further likelihood except the
opposite extreme — but applying likelihood 1 at posterior 0, or
likelihood 0 at posterior 1, evaluates `0.0/0.0` on plain Python floats
and raises an unhandled `ZeroDivisionError`, so `predict` fails rather
than leaving the extreme unchanged.  No NaN or Inf posterior is ever
produced: the degenerate division raises instead, so the no-NaN part of
the claim holds while the unconditional absorbing part does not. -/
theorem C2_absorbing_extremes (p L : ℚ) :
    (L = 0 → p ≠ 1 → bayesStep p L = .ok 0)
    ∧ (L = 1 → p ≠ 0 → bayesStep p L = .ok 1)
    ∧ (p = 0 → L ≠ 1 → bayesStep p L = .ok 0)
    ∧ (p = 1 → L ≠ 0 → bayesStep p L = .ok 1)
    ∧ (p = 0 → L = 1 → bayesStep p L = .error .zeroDivision)
    ∧ (p = 1 → L = 0 → bayesStep p L = .error .zeroDivision) := by
  refine ⟨?_, ?_, ?_, ?_, ?_, ?_⟩
  · intro hL hp
    subst hL
    have h1 : 1 - p ≠ 0 := sub_ne_zero.mpr (Ne.symm hp)
    simp [bayesStep, h1]
  · intro hL hp
    subst hL
    simp [bayesStep, hp, div_self hp]
  · intro hp hL
    subst hp
    have h1 : 1 - L ≠ 0 := sub_ne_zero.mpr (Ne.symm hL)
    simp [bayesStep, h1]
  · intro hp hL
    subst hp
    simp [bayesStep, hL, div_self hL]
  · intro hp hL
    subst hp; subst hL
    simp [bayesStep]
  · intro hp hL
    subst hp; subst hL
    simp [bayesStep]

/-- C2 witness: a concrete instance of the absorbing-to-zero part. -/
theorem C2_absorbing_extremes_witness :
    bayesStep (1/2) 0 = .ok 0 :=
  (C2_absorbing_extremes (1/2) 0).1 rfl (by norm_num)

/-- C2 counterexample: record likelihood 0 for `("a","x")` and
likelihood 1 for `("b","y")`; predicting on both drives the posterior to
0 at the first feature and then evaluates `(1×0)/(1×0 + 0×1) = 0.0/0.0`
at the second, raising an unhandled `ZeroDivisionError` — so `predict`
fails instead of leaving the posterior unchanged at the extreme,
contradicting the claim that once at an extreme every further recorded
feature leaves the posterior unchanged there. -/
theorem C2_counterexample :
    (UniversalPredictor.update ⟨1/2, [], []⟩ "a" "x" 0 1).bind
      (fun p1 => (p1.update "b" "y" 1 1).bind
        (fun p2 => p2.predict [("a", "x"), ("b", "y")])) =
    .error .zeroDivision := by
  simp [UniversalPredictor.update, UniversalPredictor.predict,
    UniversalPredictor.predictM, predictLoop, UniversalPredictor.lookupLikelihood,
    bayesStep, dictSet, List.lookup, Except.map, Except.bind]
  norm_num
